import Mathlib

/-!
Shallow embedding of the Task_Manager repository (four Python iterations of a
to-do-list script: `task_manager-v1.py`, `task_manager-v2.py`,
`task-manager-v3.py`, `task_manager-v5.py`).

Modelling conventions:
- Console prompting (`input(...).strip()` / `.capitalize()`) is the CLI shell
  boundary; the embedded operations take the already-collected, normalized
  string arguments, as in the spec's core interface.
- `print`-reported failures become returned error values; calls to
  `save_tasks` become a `saved : Bool` component or are implied by a
  successful result, since every success path of a mutating operation saves.
- Python `datetime` values are modelled as year/month/day/hour/minute/second
  records compared lexicographically, which matches `datetime` comparison on
  in-range components.  `datetime.strptime(s, "%d-%m-%Y")` (the v5 format) is
  modelled by an executable parser mirroring CPython's `_strptime` regexes:
  day is one or two digits in 1..31, month one or two digits in 1..12, year
  exactly four digits, separators literal, whole string consumed, and the
  `datetime` constructor's day-of-month/leap-year check.
- Python `str.lower()` is modelled per-character (ASCII-faithful).
-/

namespace TaskManager

/-- A task record, with the field layout of the dictionaries built by
`add_task` in `task_manager-v5.py` (`comments` is `None` in earlier
iterations, which we render as `none`). -/
structure Task where
  title : String
  category : String
  priority : String
  due_date : String
  completed : Bool
  comments : Option String
deriving DecidableEq, Repr

/-- Result type for the core operations: the spec's `Result` values, which
the scripts render as printed messages. -/
inductive Res (ε : Type) (α : Type) where
  | ok (a : α)
  | err (e : ε)
deriving DecidableEq, Repr

/-- A calendar date as produced by `datetime.strptime`. -/
structure PyDate where
  year : Nat
  month : Nat
  day : Nat
deriving DecidableEq, Repr

/-- A Python `datetime` value (microseconds are irrelevant to every claim and
are dropped; they only make `datetime.today()` even later within the day). -/
structure PyDateTime where
  year : Nat
  month : Nat
  day : Nat
  hour : Nat
  minute : Nat
  second : Nat
deriving DecidableEq, Repr

/-- Python `datetime <` comparison: lexicographic on the components. -/
def pyDTlt (a b : PyDateTime) : Bool :=
  if a.year ≠ b.year then a.year < b.year
  else if a.month ≠ b.month then a.month < b.month
  else if a.day ≠ b.day then a.day < b.day
  else if a.hour ≠ b.hour then a.hour < b.hour
  else if a.minute ≠ b.minute then a.minute < b.minute
  else a.second < b.second

/-- The `datetime` that `strptime` returns for a bare date: midnight. -/
def PyDate.midnight (d : PyDate) : PyDateTime :=
  ⟨d.year, d.month, d.day, 0, 0, 0⟩

/-- Python `str.split("-")` on the character list of a string. -/
def splitOnDash : List Char → List (List Char)
  | [] => [[]]
  | '-' :: rest => [] :: splitOnDash rest
  | c :: rest =>
    match splitOnDash rest with
    | part :: parts => (c :: part) :: parts
    | [] => [[c]]

/-- Digits-only numeral reading (the fields matched by the `_strptime`
regexes are pure digit runs). -/
def digitsToNat : List Char → Option Nat
  | cs =>
    if cs ≠ [] ∧ cs.all Char.isDigit then
      some (cs.foldl (fun n c => n * 10 + (c.toNat - '0'.toNat)) 0)
    else none

/-- Gregorian leap-year rule, as used by `datetime`'s constructor. -/
def isLeapYear (y : Nat) : Bool :=
  y % 4 == 0 && (y % 100 != 0 || y % 400 == 0)

/-- Days in a month, as used by `datetime`'s constructor check. -/
def daysInMonth (y m : Nat) : Nat :=
  if m = 2 then (if isLeapYear y then 29 else 28)
  else if m = 4 ∨ m = 6 ∨ m = 9 ∨ m = 11 then 30
  else 31

/-- Model of `datetime.strptime(s, "%d-%m-%Y")` from `task_manager-v5.py`:
`none` models the `ValueError` branch.  CPython matches `%d` against one or
two digits valued 1..31, `%m` against one or two digits valued 1..12, `%Y`
against exactly four digits, requires the whole string to match, and the
`datetime` constructor then rejects a day beyond the month's length and a
year below 1. -/
def strptimeDDMMYYYY (s : String) : Option PyDate :=
  match splitOnDash s.data with
  | [ds, ms, ys] =>
    match digitsToNat ds, digitsToNat ms, digitsToNat ys with
    | some d, some m, some y =>
      if ds.length ≤ 2 ∧ ms.length ≤ 2 ∧ ys.length = 4 ∧
          1 ≤ d ∧ d ≤ 31 ∧ 1 ≤ m ∧ m ≤ 12 ∧ 1 ≤ y ∧ d ≤ daysInMonth y m then
        some ⟨y, m, d⟩
      else none
    | _, _, _ => none
  | _ => none

/-- Python `str.lower()` (ASCII-faithful, which covers every title the
claims touch). -/
def pyLower (s : String) : String :=
  ⟨s.data.map Char.toLower⟩

/-- The function `validate_priority` from `task_manager-v5.py` (identical in v2/v3):
membership of the exact strings `Low`, `Medium`, `High`. -/
def validate_priority (priority : String) : Bool :=
  ["Low", "Medium", "High"].contains priority

/-- The three-way outcome of `validate_due_date`'s body, distinguishing the
two printed failure messages (bad format vs past date), i.e. the spec's
`InvalidDateFormat` vs `PastDueDate`. -/
inductive DateCheck where
  | ok
  | badFormat
  | pastDate
deriving DecidableEq, Repr

/-- The body of `validate_due_date` from `task_manager-v5.py` with the two
failure messages kept apart: parse under `%d-%m-%Y`; `ValueError` is the
bad-format branch; otherwise compare the parsed midnight `datetime` against
`datetime.today()` (passed in as `today`). -/
def dateCheckFn (due_date : String) (today : PyDateTime) : DateCheck :=
  match strptimeDDMMYYYY due_date with
  | none => .badFormat
  | some d => if pyDTlt d.midnight today then .pastDate else .ok

/-- The function `validate_due_date` from `task_manager-v5.py`: the Boolean the function
returns (both failure branches return `False`). -/
def validate_due_date (due_date : String) (today : PyDateTime) : Bool :=
  dateCheckFn due_date today == .ok

/-- The spec's `ValidationError` reasons (§7), matching the three distinct
failure messages printed by `validate_priority` / `validate_due_date`. -/
inductive ValidationError where
  | invalidPriority
  | invalidDateFormat
  | pastDueDate
deriving DecidableEq, Repr

/-- The spec's `NotFound` lookup failure (the scripts' `Task not found!`). -/
inductive LookupError where
  | notFound
deriving DecidableEq, Repr

/-- Outcome of `add_task`: what it returns, the collection afterwards, and
whether `save_tasks` ran. -/
structure AddResult where
  result : Res ValidationError Task
  tasks : List Task
  saved : Bool
deriving DecidableEq, Repr

/-- The function `add_task` from `task_manager-v5.py`, after the console boundary: the
five collected strings arrive stripped (and the priority capitalized).  An
invalid priority cancels before the date is checked; an invalid date cancels
next; otherwise the new task (with `completed := False` and blank comments
stored as `None`) is appended and saved. -/
def add_task (tasks : List Task) (title category priority due_date comments : String)
    (today : PyDateTime) : AddResult :=
  if validate_priority priority = false then
    ⟨.err .invalidPriority, tasks, false⟩
  else
    match dateCheckFn due_date today with
    | .badFormat => ⟨.err .invalidDateFormat, tasks, false⟩
    | .pastDate => ⟨.err .pastDueDate, tasks, false⟩
    | .ok =>
      let task : Task :=
        { title := title, category := category, priority := priority,
          due_date := due_date, completed := false,
          comments := if comments = "" then none else some comments }
      ⟨.ok task, tasks ++ [task], true⟩

/-- The function `remove_task` from `task_manager-v5.py`: drop the first case-insensitive
title match (Python's `tasks.remove(task)` removes the first element equal
to the matched one, which is that first match, since every earlier element
differs in title); report `NotFound` when no task matches. -/
def remove_task : List Task → String → Res LookupError (List Task)
  | [], _ => .err .notFound
  | t :: rest, title =>
    if pyLower t.title == pyLower title then .ok rest
    else
      match remove_task rest title with
      | .ok ts => .ok (t :: ts)
      | .err e => .err e

/-- The function `mark_task_complete` from `task_manager-v5.py`: set `completed := True`
on the first case-insensitive title match and save; `NotFound` otherwise. -/
def mark_task_complete : List Task → String → Res LookupError (List Task)
  | [], _ => .err .notFound
  | t :: rest, title =>
    if pyLower t.title == pyLower title then
      .ok ({ t with completed := true } :: rest)
    else
      match mark_task_complete rest title with
      | .ok ts => .ok (t :: ts)
      | .err e => .err e

/-- Outcome of `remove_completed_tasks`: the collection afterwards, how many
tasks were dropped (`initial_count - len(tasks)`), and whether `save_tasks`
ran (`len(tasks) < initial_count`). -/
structure RemoveCompletedResult where
  tasks : List Task
  removed : Nat
  saved : Bool
deriving DecidableEq, Repr

/-- The function `remove_completed_tasks` from `task_manager-v5.py` (identical in v3):
keep only uncompleted tasks; save only when the collection shrank. -/
def remove_completed_tasks (tasks : List Task) : RemoveCompletedResult :=
  let initial_count := tasks.length
  let kept := tasks.filter (fun t => !t.completed)
  ⟨kept, initial_count - kept.length, decide (kept.length < initial_count)⟩

/-- The function `remove_all_tasks` from `task_manager-v5.py` with the confirmation
answer passed as a Boolean (the spec's `remove_all(tasks, confirmed)`):
returns the collection afterwards and whether the clear happened. -/
def remove_all_tasks (tasks : List Task) (confirmed : Bool) : List Task × Bool :=
  if confirmed then ([], true) else (tasks, false)

/-- Failure modes of `edit_task`: no title match, or one of the two
validators cancelling the update. -/
inductive EditError where
  | notFound
  | invalidPriority
  | invalidDateFormat
  | pastDueDate
deriving DecidableEq, Repr

/-- The per-task body of `edit_task` from `task_manager-v5.py`, run on the
first title match: each blank patch field keeps the current value; the
resulting priority is validated when non-blank, then the resulting due date;
a validation failure cancels the whole update; blank new comments keep the
existing comments. -/
def editMatched (t : Task) (nt nc np nd ncom : String) (today : PyDateTime) :
    Res EditError Task :=
  let newTitle := if nt = "" then t.title else nt
  let newCategory := if nc = "" then t.category else nc
  let newPriority := if np = "" then t.priority else np
  if newPriority ≠ "" ∧ validate_priority newPriority = false then
    .err .invalidPriority
  else
    let newDueDate := if nd = "" then t.due_date else nd
    match (if newDueDate = "" then DateCheck.ok else dateCheckFn newDueDate today) with
    | .badFormat => .err .invalidDateFormat
    | .pastDate => .err .pastDueDate
    | .ok =>
      let newComments := if ncom = "" then t.comments else some ncom
      .ok { title := newTitle, category := newCategory, priority := newPriority,
            due_date := newDueDate, completed := t.completed, comments := newComments }

/-- The function `edit_task` from `task_manager-v5.py`: locate the first case-insensitive
title match and apply the patch body to it; any cancellation leaves the
collection untouched (the code returns before `task.update`); success
rewrites that one task in place and saves. -/
def edit_task (title nt nc np nd ncom : String) (today : PyDateTime) :
    List Task → Res EditError (List Task)
  | [] => .err .notFound
  | t :: rest =>
    if pyLower t.title == pyLower title then
      match editMatched t nt nc np nd ncom today with
      | .ok t2 => .ok (t2 :: rest)
      | .err e => .err e
    else
      match edit_task title nt nc np nd ncom today rest with
      | .ok ts => .ok (t :: ts)
      | .err e => .err e

/-- The two list-view filters of `list_tasks` in `task_manager-v2.py`
(lines 137-140), combined over the wanted completion flag: the spec's
`filter_by_completion`. -/
def filter_by_completion (tasks : List Task) (wantCompleted : Bool) : List Task :=
  tasks.filter (fun t => t.completed == wantCompleted)

/-- Python's `<` on strings: code-point lexicographic comparison. -/
def pyStrLt : List Char → List Char → Bool
  | [], [] => false
  | [], _ :: _ => true
  | _ :: _, [] => false
  | a :: xs, b :: ys =>
    if a.val < b.val then true
    else if b.val < a.val then false
    else pyStrLt xs ys

/-- Stable descending insertion of a task by its priority string, the
building block of the priority branch of `list_tasks`:
`sorted(tasks, key=lambda t: t["priority"], reverse=True)` is a stable sort,
descending by the raw priority string under Python's code-point
lexicographic order, and any stable sort of the same total preorder yields
the same output, so it is rendered as a stable insertion sort.  The inserted
task goes before the first resident whose key is not strictly greater, so
earlier originals stay before tied later ones. -/
def orderedInsertDescPr (x : Task) : List Task → List Task
  | [] => [x]
  | y :: ys =>
    if pyStrLt x.priority.data y.priority.data then y :: orderedInsertDescPr x ys
    else x :: y :: ys

/-- The full priority sort of `list_tasks` (v1 line 98 / v2 line 142 /
v3 line 152): stable, descending by the raw priority string. -/
def sort_by_priority : List Task → List Task
  | [] => []
  | x :: xs => orderedInsertDescPr x (sort_by_priority xs)

/-- The function `list_tasks` from `task_manager-v5.py` (lines 176-186): the sequence of
tasks the function displays.  The `filter_by` argument is accepted but never
read — every task is printed — so the displayed sequence is the whole
collection (the empty collection prints a notice and displays nothing). -/
def list_tasks_v5 (tasks : List Task) (_filter_by : Option String) : List Task :=
  if tasks.isEmpty then [] else tasks

/-! ### The task store

`load_tasks` reads `tasks.json` and parses it with `json.load`; the store is
modelled as the file's state (`none` = absent, `some s` = raw content), and
`json.load` as an executable parser of the JSON grammar (numbers are kept as
their raw token — no claim inspects numeric content). -/

/-- A parsed JSON document, the result type of the modelled `json.load`. -/
inductive Json where
  | null
  | bool (b : Bool)
  | num (raw : String)
  | str (s : String)
  | arr (items : List Json)
  | obj (fields : List (String × Json))

/-- Skip insignificant JSON whitespace. -/
def skipWs : List Char → List Char
  | c :: rest =>
    if c = ' ' ∨ c = '\t' ∨ c = '\n' ∨ c = '\r' then skipWs rest else c :: rest
  | [] => []

/-- Whether a character is a hexadecimal digit. -/
def isHexDigitChar (c : Char) : Bool :=
  c.isDigit || ('a' ≤ c && c ≤ 'f') || ('A' ≤ c && c ≤ 'F')

/-- Value of one hexadecimal digit. -/
def hexDigitVal (c : Char) : Nat :=
  if c.isDigit then c.toNat - '0'.toNat
  else if 'a' ≤ c ∧ c ≤ 'f' then c.toNat - 'a'.toNat + 10
  else if 'A' ≤ c ∧ c ≤ 'F' then c.toNat - 'A'.toNat + 10
  else 0

/-- JSON string body parser (the opening quote already consumed): plain
characters up to the closing quote, backslash escapes, `\u` hex escapes;
unescaped control characters are rejected as `json.load` does. -/
def parseJStringAux (acc : List Char) : List Char → Option (String × List Char)
  | '"' :: rest => some (⟨acc.reverse⟩, rest)
  | '\\' :: c :: rest =>
    if c = '"' then parseJStringAux ('"' :: acc) rest
    else if c = '\\' then parseJStringAux ('\\' :: acc) rest
    else if c = '/' then parseJStringAux ('/' :: acc) rest
    else if c = 'n' then parseJStringAux ('\n' :: acc) rest
    else if c = 't' then parseJStringAux ('\t' :: acc) rest
    else if c = 'r' then parseJStringAux ('\r' :: acc) rest
    else if c = 'b' then parseJStringAux (Char.ofNat 8 :: acc) rest
    else if c = 'f' then parseJStringAux (Char.ofNat 12 :: acc) rest
    else if c = 'u' then
      match rest with
      | h1 :: h2 :: h3 :: h4 :: rest2 =>
        if isHexDigitChar h1 ∧ isHexDigitChar h2 ∧ isHexDigitChar h3 ∧ isHexDigitChar h4 then
          let v := ((hexDigitVal h1 * 16 + hexDigitVal h2) * 16 + hexDigitVal h3) * 16 +
            hexDigitVal h4
          parseJStringAux (Char.ofNat v :: acc) rest2
        else none
      | _ => none
    else none
  | c :: rest =>
    if c.toNat < 32 then none else parseJStringAux (c :: acc) rest
  | [] => none

/-- Longest digit run at the head of the input. -/
def takeDigits : List Char → List Char × List Char
  | [] => ([], [])
  | c :: rest =>
    if c.isDigit then
      match takeDigits rest with
      | (ds, r) => (c :: ds, r)
    else ([], c :: rest)

/-- Optional fraction part of a JSON number. -/
def parseJFrac : List Char → Option (List Char × List Char)
  | '.' :: r =>
    match takeDigits r with
    | ([], _) => none
    | (ds, rest) => some ('.' :: ds, rest)
  | cs => some ([], cs)

/-- Optional exponent part of a JSON number. -/
def parseJExp : List Char → Option (List Char × List Char)
  | c :: r =>
    if c = 'e' ∨ c = 'E' then
      match r with
      | s :: r2 =>
        if s = '+' ∨ s = '-' then
          match takeDigits r2 with
          | ([], _) => none
          | (ds, rest) => some (c :: s :: ds, rest)
        else
          match takeDigits r with
          | ([], _) => none
          | (ds, rest) => some (c :: ds, rest)
      | [] => none
    else some ([], c :: r)
  | [] => some ([], [])

/-- A JSON number token (kept raw): optional sign, integer part without a
leading zero, optional fraction and exponent. -/
def parseJNumber (cs : List Char) : Option (String × List Char) :=
  let signSplit : List Char × List Char :=
    match cs with
    | '-' :: r => (['-'], r)
    | _ => ([], cs)
  match takeDigits signSplit.2 with
  | ([], _) => none
  | (intDs, cs2) =>
    if 2 ≤ intDs.length ∧ intDs.headD 'x' = '0' then none
    else
      match parseJFrac cs2 with
      | none => none
      | some (fracDs, cs3) =>
        match parseJExp cs3 with
        | none => none
        | some (expDs, cs4) => some (⟨signSplit.1 ++ intDs ++ fracDs ++ expDs⟩, cs4)

mutual

/-- Recursive-descent JSON value parser (fuel-indexed; ample fuel is
supplied at the top level). -/
def parseJValue : Nat → List Char → Option (Json × List Char)
  | 0, _ => none
  | fuel + 1, cs =>
    match skipWs cs with
    | 'n' :: 'u' :: 'l' :: 'l' :: rest => some (.null, rest)
    | 't' :: 'r' :: 'u' :: 'e' :: rest => some (.bool true, rest)
    | 'f' :: 'a' :: 'l' :: 's' :: 'e' :: rest => some (.bool false, rest)
    | '"' :: rest =>
      match parseJStringAux [] rest with
      | some (s, rest2) => some (.str s, rest2)
      | none => none
    | '[' :: rest =>
      match skipWs rest with
      | ']' :: rest2 => some (.arr [], rest2)
      | cs2 =>
        match parseJItems fuel cs2 with
        | some (items, rest2) =>
          match skipWs rest2 with
          | ']' :: rest3 => some (.arr items, rest3)
          | _ => none
        | none => none
    | '{' :: rest =>
      match skipWs rest with
      | '}' :: rest2 => some (.obj [], rest2)
      | cs2 =>
        match parseJMembers fuel cs2 with
        | some (fields, rest2) =>
          match skipWs rest2 with
          | '}' :: rest3 => some (.obj fields, rest3)
          | _ => none
        | none => none
    | c :: rest =>
      if c.isDigit ∨ c = '-' then
        match parseJNumber (c :: rest) with
        | some (tok, rest2) => some (.num tok, rest2)
        | none => none
      else none
    | [] => none

/-- Comma-separated JSON array items. -/
def parseJItems : Nat → List Char → Option (List Json × List Char)
  | 0, _ => none
  | fuel + 1, cs =>
    match parseJValue fuel cs with
    | some (v, rest) =>
      match skipWs rest with
      | ',' :: rest2 =>
        match parseJItems fuel rest2 with
        | some (vs, rest3) => some (v :: vs, rest3)
        | none => none
      | rest2 => some ([v], rest2)
    | none => none

/-- Comma-separated JSON object members. -/
def parseJMembers : Nat → List Char → Option (List (String × Json) × List Char)
  | 0, _ => none
  | fuel + 1, cs =>
    match skipWs cs with
    | '"' :: rest =>
      match parseJStringAux [] rest with
      | some (k, rest2) =>
        match skipWs rest2 with
        | ':' :: rest3 =>
          match parseJValue fuel rest3 with
          | some (v, rest4) =>
            match skipWs rest4 with
            | ',' :: rest5 =>
              match parseJMembers fuel rest5 with
              | some (kvs, rest6) => some ((k, v) :: kvs, rest6)
              | none => none
            | rest5 => some ([(k, v)], rest5)
          | none => none
        | _ => none
      | none => none
    | _ => none

end

/-- The modelled `json.load`: parse one JSON document, requiring the whole
input to be consumed up to trailing whitespace; `none` models
`json.JSONDecodeError`. -/
def jsonParse (s : String) : Option Json :=
  match parseJValue (2 * s.length + 2) s.data with
  | some (j, rest) => if skipWs rest = [] then some j else none
  | none => none

/-- The two exception types that `load_tasks`'s `except` clause catches. -/
inductive PyErr where
  | fileNotFoundError
  | jsonDecodeError
deriving DecidableEq, Repr

/-- Model of `open(TASKS_FILE, "r")` plus reading over the modelled store: an absent
file raises `FileNotFoundError`. -/
def openRead : Option String → Res PyErr String
  | none => .err .fileNotFoundError
  | some content => .ok content

/-- Model of `json.load(file)` over the file's content. -/
def jsonLoad (content : String) : Res PyErr Json :=
  match jsonParse content with
  | some j => .ok j
  | none => .err .jsonDecodeError

/-- The function `load_tasks` from `task_manager-v5.py` (identical in v1/v2/v3): the
`try` body opens and decodes the file; the `except` clause turns both
`FileNotFoundError` and `json.JSONDecodeError` into the empty list (the
empty JSON array).  The function is total: no error reaches the caller. -/
def load_tasks (file : Option String) : Json :=
  match openRead file with
  | .ok content =>
    match jsonLoad content with
    | .ok j => j
    | .err .jsonDecodeError => Json.arr []
    | .err .fileNotFoundError => Json.arr []
  | .err .fileNotFoundError => Json.arr []
  | .err .jsonDecodeError => Json.arr []

/-! ### Reachable collection states

One constructor per mutating menu operation, with the interactive inputs as
payload; a failed operation leaves the collection as it was (the scripts
return before touching it). -/

/-- A single mutating operation together with its collected inputs. -/
inductive Op where
  | addOp (title category priority due_date comments : String) (today : PyDateTime)
  | removeOp (title : String)
  | editOp (title nt nc np nd ncom : String) (today : PyDateTime)
  | markCompleteOp (title : String)
  | removeCompletedOp
  | removeAllOp (confirmed : Bool)
deriving DecidableEq, Repr

/-- The collection after running one operation (errors leave it unchanged,
as the scripts return before mutating). -/
def applyOp (tasks : List Task) : Op → List Task
  | .addOp t c p d com today => (add_task tasks t c p d com today).tasks
  | .removeOp title =>
    match remove_task tasks title with
    | .ok ts => ts
    | .err _ => tasks
  | .editOp title nt nc np nd ncom today =>
    match edit_task title nt nc np nd ncom today tasks with
    | .ok ts => ts
    | .err _ => tasks
  | .markCompleteOp title =>
    match mark_task_complete tasks title with
    | .ok ts => ts
    | .err _ => tasks
  | .removeCompletedOp => (remove_completed_tasks tasks).tasks
  | .removeAllOp confirmed => (remove_all_tasks tasks confirmed).1

/-- The collection after a whole sequence of operations. -/
def applyOps (tasks : List Task) : List Op → List Task
  | [] => tasks
  | op :: ops => applyOps (applyOp tasks op) ops

/-- Whether an operation's submitted title is non-empty when the operation
is an `add` (the only operation that can introduce a fresh title). -/
def addTitleOkB : Op → Bool
  | .addOp title _ _ _ _ _ => title != ""
  | _ => true

/-! ### Concrete fixtures used by the closed checks -/

/-- A fixed validation-time `datetime.today()` for the concrete checks. -/
def dtNow : PyDateTime := ⟨2026, 1, 1, 9, 30, 0⟩

/-- A pending high-priority task with a future due date. -/
def taskHigh : Task := ⟨"write report", "Work", "High", "31-12-2030", false, none⟩

/-- The task `taskHigh` after being marked complete. -/
def taskHighDone : Task := ⟨"write report", "Work", "High", "31-12-2030", true, none⟩

/-- A pending low-priority task with a future due date. -/
def taskLow : Task := ⟨"water plants", "Home", "Low", "31-12-2030", false, none⟩

/-- A pending medium-priority task with a future due date. -/
def taskMedium : Task := ⟨"buy groceries", "Shopping", "Medium", "31-12-2030", false, none⟩

/-- A completed task. -/
def taskDone : Task := ⟨"pay bills", "Home", "Low", "31-12-2030", true, none⟩

/-- A task whose stored due date lies before `dtNow`. -/
def taskPastDue : Task := ⟨"old chore", "Home", "High", "01-01-2020", false, none⟩

/-! ## Theorems -/

/-- The lengths of the kept and dropped parts of a completion filter sum to
the collection's length. -/
theorem length_filter_completed_split (tasks : List Task) :
    (tasks.filter (fun t => !t.completed)).length +
      (tasks.filter (fun t => t.completed)).length = tasks.length := by
  induction tasks with
  | nil => rfl
  | cons t rest ih => cases h : t.completed <;> simp [List.filter_cons, h] <;> omega

/-- C1: the priority-sorting branch of `list_tasks` sorts by the raw
priority string in reverse lexicographic order, so on the input
[High, Low, Medium] it yields [Medium, Low, High] and not the rank-descending
[High, Medium, Low] that the claim states. -/
theorem sort_by_priority_is_reverse_lexical :
    sort_by_priority [taskHigh, taskLow, taskMedium] = [taskMedium, taskLow, taskHigh] ∧
    sort_by_priority [taskHigh, taskLow, taskMedium] ≠ [taskHigh, taskMedium, taskLow] := by
  decide

/-- C2: `validate_due_date` compares the parsed date at midnight against the
full current `datetime`, so a due date equal to today's calendar date parses
correctly yet is rejected at any time after midnight — here 12-10-2026
validated at 2026-10-12 12:00:00. -/
theorem validate_due_date_rejects_today :
    strptimeDDMMYYYY "12-10-2026" = some ⟨2026, 10, 12⟩ ∧
    validate_due_date "12-10-2026" ⟨2026, 10, 12, 12, 0, 0⟩ = false ∧
    validate_due_date "13-10-2026" ⟨2026, 10, 12, 12, 0, 0⟩ = true := by
  decide

/-- C4: in `task_manager-v5.py`, `list_tasks` ignores its `filter_by`
argument, so the pending view (`filter_by="incomplete"`) displays a
completed task, while the claimed completion filter (the v2 branch) would
keep only tasks whose completed field equals the flag. -/
theorem list_tasks_v5_ignores_completion_filter :
    list_tasks_v5 [taskDone] (some "incomplete") = [taskDone] ∧
    taskDone.completed = true ∧
    filter_by_completion [taskDone] false = [] := by
  decide

/-- C8: `remove_completed_tasks` keeps exactly the tasks with
`completed = false` in their original relative order, reports as removed the
number of completed tasks, saves iff at least one task was removed, and a
second immediate call removes nothing and does not save. -/
theorem remove_completed_tasks_spec (tasks : List Task) :
    (∀ t, t ∈ (remove_completed_tasks tasks).tasks ↔ t ∈ tasks ∧ t.completed = false) ∧
    (remove_completed_tasks tasks).tasks.Sublist tasks ∧
    (remove_completed_tasks tasks).removed = (tasks.filter (fun t => t.completed)).length ∧
    ((remove_completed_tasks tasks).saved = true ↔ 0 < (remove_completed_tasks tasks).removed) ∧
    remove_completed_tasks (remove_completed_tasks tasks).tasks =
      ⟨(remove_completed_tasks tasks).tasks, 0, false⟩ := by
  have hsplit := length_filter_completed_split tasks
  have hle := List.length_filter_le (fun t => !t.completed) tasks
  refine ⟨?_, ?_, ?_, ?_, ?_⟩
  · intro t
    simp [remove_completed_tasks, List.mem_filter]
  · exact List.filter_sublist tasks
  · simp only [remove_completed_tasks]
    omega
  · simp only [remove_completed_tasks, decide_eq_true_eq]
    omega
  · have hidem : ((tasks.filter (fun t => !t.completed)).filter (fun t => !t.completed)) =
        tasks.filter (fun t => !t.completed) := by
      refine List.filter_eq_self.mpr ?_
      intro a ha
      exact (List.mem_filter.mp ha).2
    simp only [remove_completed_tasks, hidem]
    simp

/-- C7: `load_tasks` returns the decoded content of the persisted file, and
the empty array whenever the file is absent or its content fails to parse as
JSON; it is a total function, so no failure reaches the caller. -/
theorem load_tasks_spec (file : Option String) :
    (file = none → load_tasks file = Json.arr []) ∧
    (∀ s, file = some s → jsonParse s = none → load_tasks file = Json.arr []) ∧
    (∀ s j, file = some s → jsonParse s = some j → load_tasks file = j) := by
  refine ⟨?_, ?_, ?_⟩
  · rintro rfl; rfl
  · rintro s rfl h
    simp [load_tasks, openRead, jsonLoad, h]
  · rintro s j rfl h
    simp [load_tasks, openRead, jsonLoad, h]

/-- Witness for C7 at concrete store states: an absent file, undecodable
content, and a well-formed one-element array. -/
theorem load_tasks_spec_witness :
    load_tasks none = Json.arr [] ∧
    load_tasks (some "these are not tasks") = Json.arr [] ∧
    load_tasks (some "[true]") = Json.arr [Json.bool true] :=
  ⟨(load_tasks_spec none).1 rfl,
   (load_tasks_spec (some "these are not tasks")).2.1 _ rfl rfl,
   (load_tasks_spec (some "[true]")).2.2 _ _ rfl rfl⟩

/-- C5: `add_task` is a no-op on the collection (and does not save) when a
validator rejects, returning the matching error — `InvalidPriority` for a
bad priority, `InvalidDateFormat` for an unparseable date, `PastDueDate` for
a past one — and when both validators pass it appends exactly one task
carrying the submitted fields with `completed = false` (blank comments
stored as `none`) and returns it. -/
theorem add_task_spec (tasks : List Task)
    (title category priority due_date comments : String) (today : PyDateTime) :
    (validate_priority priority = false →
      add_task tasks title category priority due_date comments today =
        ⟨.err .invalidPriority, tasks, false⟩) ∧
    (validate_priority priority = true → dateCheckFn due_date today = .badFormat →
      add_task tasks title category priority due_date comments today =
        ⟨.err .invalidDateFormat, tasks, false⟩) ∧
    (validate_priority priority = true → dateCheckFn due_date today = .pastDate →
      add_task tasks title category priority due_date comments today =
        ⟨.err .pastDueDate, tasks, false⟩) ∧
    (validate_priority priority = true → dateCheckFn due_date today = .ok →
      add_task tasks title category priority due_date comments today =
        ⟨.ok ⟨title, category, priority, due_date, false,
              if comments = "" then none else some comments⟩,
         tasks ++ [⟨title, category, priority, due_date, false,
              if comments = "" then none else some comments⟩], true⟩) := by
  refine ⟨?_, ?_, ?_, ?_⟩
  · intro h
    simp [add_task, h]
  all_goals intro h1 h2
  all_goals simp [add_task, h1, h2]

/-- Witness for C5: a fully valid submission at the fixed clock appends the
one new task and returns it. -/
theorem add_task_spec_witness :
    add_task [] "buy milk" "Shopping" "High" "31-12-2030" "" dtNow =
      ⟨.ok ⟨"buy milk", "Shopping", "High", "31-12-2030", false, none⟩,
       [⟨"buy milk", "Shopping", "High", "31-12-2030", false, none⟩], true⟩ := by
  have h := (add_task_spec [] "buy milk" "Shopping" "High" "31-12-2030" "" dtNow).2.2.2
    (by decide) (by decide)
  simpa using h

/-- The patch body of `edit_task` keeps a fully-blank patch's task exactly
as it was, provided its stored priority and due date (re-validated by the
code even though unchanged) pass — or are empty strings, which the code's
truthiness test skips. -/
theorem editMatched_blank (t : Task) (today : PyDateTime)
    (hp : t.priority = "" ∨ validate_priority t.priority = true)
    (hd : t.due_date = "" ∨ dateCheckFn t.due_date today = DateCheck.ok) :
    editMatched t "" "" "" "" "" today = .ok t := by
  obtain ⟨title, category, priority, due_date, completed, comments⟩ := t
  rcases hp with hp | hp <;> rcases hd with hd | hd <;>
    simp_all [editMatched]

/-- Running `edit_task` on a collection split at its first case-insensitive title
match applies the patch body to that task and leaves every other task in
place (a patch-body failure cancels the whole edit). -/
theorem edit_task_of_split (title nt nc np nd ncom : String) (today : PyDateTime)
    (pre : List Task) (t : Task) (post : List Task)
    (hpre : ∀ u ∈ pre, (pyLower u.title == pyLower title) = false)
    (ht : (pyLower t.title == pyLower title) = true) :
    edit_task title nt nc np nd ncom today (pre ++ t :: post) =
      match editMatched t nt nc np nd ncom today with
      | .ok t2 => .ok (pre ++ t2 :: post)
      | .err e => .err e := by
  induction pre with
  | nil =>
    simp only [List.nil_append, edit_task, ht, if_true]
  | cons p pre ih =>
    have hp : (pyLower p.title == pyLower title) = false := hpre p (by simp)
    have ih2 := ih (fun u hu => hpre u (by simp [hu]))
    simp only [List.cons_append, edit_task, hp, Bool.false_eq_true, if_false,
      List.append_eq, ih2]
    cases editMatched t nt nc np nd ncom today <;> rfl

/-- Counterexample to C3: a present task whose stored due date has become
past (01-01-2020 at a 2026 clock) makes the all-blank edit abort with
`PastDueDate` instead of succeeding, because the code re-validates the
unchanged due date. -/
theorem blank_edit_aborts_on_stale_due_date :
    edit_task "old chore" "" "" "" "" "" dtNow [taskPastDue] = .err .pastDueDate := by
  decide

/-- C3 (amended): an all-blank edit of the first case-insensitive match
succeeds and returns the collection with every field of every task exactly
as before, provided the matched task's stored priority and stored due date
pass re-validation at edit time (or are empty, which the truthiness test
skips); the code re-validates both even though they are unchanged. -/
theorem blank_edit_keeps_collection (tasks : List Task) (title : String) (today : PyDateTime)
    (pre : List Task) (t : Task) (post : List Task)
    (hsplit : tasks = pre ++ t :: post)
    (hpre : ∀ u ∈ pre, (pyLower u.title == pyLower title) = false)
    (ht : (pyLower t.title == pyLower title) = true)
    (hp : t.priority = "" ∨ validate_priority t.priority = true)
    (hd : t.due_date = "" ∨ dateCheckFn t.due_date today = DateCheck.ok) :
    edit_task title "" "" "" "" "" today tasks = .ok tasks := by
  subst hsplit
  rw [edit_task_of_split _ _ _ _ _ _ _ _ _ _ hpre ht, editMatched_blank t today hp hd]

/-- Witness for C3 (amended): an all-blank edit, addressed with a different
casing of the title, returns the one-task collection unchanged. -/
theorem blank_edit_keeps_collection_witness :
    edit_task "WRITE REPORT" "" "" "" "" "" dtNow [taskHigh] = .ok [taskHigh] :=
  blank_edit_keeps_collection [taskHigh] "WRITE REPORT" dtNow [] taskHigh [] rfl
    (by simp) (by decide) (Or.inr (by decide)) (Or.inr (by decide))

/-- A successful `mark_task_complete` decomposes the collection at the
first case-insensitive title match and flips only that task's completed
flag. -/
theorem mark_task_complete_ok_split {tasks ts : List Task} {title : String}
    (h : mark_task_complete tasks title = .ok ts) :
    ∃ pre t post, tasks = pre ++ t :: post ∧
      (∀ u ∈ pre, (pyLower u.title == pyLower title) = false) ∧
      (pyLower t.title == pyLower title) = true ∧
      ts = pre ++ { t with completed := true } :: post := by
  induction tasks generalizing ts with
  | nil => cases h
  | cons t rest ih =>
    rw [mark_task_complete] at h
    by_cases hc : (pyLower t.title == pyLower title) = true
    · rw [if_pos hc] at h
      cases h
      exact ⟨[], t, rest, rfl, by simp, hc, rfl⟩
    · rw [if_neg hc] at h
      cases hrec : mark_task_complete rest title with
      | ok ts2 =>
        rw [hrec] at h
        cases h
        obtain ⟨pre, t0, post, hs, hpre, ht0, hts⟩ := ih hrec
        refine ⟨t :: pre, t0, post, by rw [hs]; rfl, ?_, ht0, by rw [hts]; rfl⟩
        intro u hu
        rcases List.mem_cons.mp hu with rfl | hu
        · simpa using hc
        · exact hpre u hu
      | err e =>
        rw [hrec] at h
        cases h

/-- Running `mark_task_complete` on a collection split at its first
case-insensitive title match succeeds and flips that task's flag. -/
theorem mark_task_complete_of_split (title : String) (pre : List Task) (t : Task)
    (post : List Task)
    (hpre : ∀ u ∈ pre, (pyLower u.title == pyLower title) = false)
    (ht : (pyLower t.title == pyLower title) = true) :
    mark_task_complete (pre ++ t :: post) title =
      .ok (pre ++ { t with completed := true } :: post) := by
  induction pre with
  | nil =>
    simp only [List.nil_append, mark_task_complete, ht, if_true]
  | cons p pre ih =>
    have hp : (pyLower p.title == pyLower title) = false := hpre p (by simp)
    have ih2 := ih (fun u hu => hpre u (by simp [hu]))
    simp only [List.cons_append, mark_task_complete, hp, Bool.false_eq_true, if_false,
      List.append_eq, ih2]

/-- Some task of the collection matches the searched title, so
`mark_task_complete` succeeds. -/
theorem mark_task_complete_isOk {tasks : List Task} {title : String} {t0 : Task}
    (h0 : t0 ∈ tasks) (hm : (pyLower t0.title == pyLower title) = true) :
    ∃ ts, mark_task_complete tasks title = .ok ts := by
  induction tasks with
  | nil => cases h0
  | cons t rest ih =>
    by_cases hc : (pyLower t.title == pyLower title) = true
    · exact ⟨_, by rw [mark_task_complete, if_pos hc]⟩
    · rcases List.mem_cons.mp h0 with rfl | h0r
      · exact absurd hm hc
      · obtain ⟨ts, hts⟩ := ih h0r
        exact ⟨t :: ts, by rw [mark_task_complete, if_neg hc, hts]⟩

/-- C9: when some task matches the searched title case-insensitively,
`mark_task_complete` succeeds, and it is idempotent: re-marking succeeds
(no error), yields exactly the same collection, and the matched task's
completed flag is (and stays) true. -/
theorem mark_task_complete_idempotent (tasks : List Task) (title : String) (t0 : Task)
    (h0 : t0 ∈ tasks) (hm : (pyLower t0.title == pyLower title) = true) :
    ∃ ts, mark_task_complete tasks title = .ok ts ∧
      mark_task_complete ts title = .ok ts ∧
      ∃ pre t post, ts = pre ++ t :: post ∧ t.completed = true ∧
        (pyLower t.title == pyLower title) = true := by
  obtain ⟨ts, hts⟩ := mark_task_complete_isOk h0 hm
  obtain ⟨pre, t, post, hsplit, hpre, ht, hts2⟩ := mark_task_complete_ok_split hts
  subst hts2
  refine ⟨_, hts, ?_, pre, { t with completed := true }, post, rfl, rfl, ht⟩
  exact mark_task_complete_of_split title pre { t with completed := true } post hpre ht

/-- Witness for C9 on a one-element collection addressed with a different
casing of the title. -/
theorem mark_task_complete_idempotent_witness :
    ∃ ts, mark_task_complete [taskHigh] "Write Report" = .ok ts ∧
      mark_task_complete ts "Write Report" = .ok ts ∧
      ∃ pre t post, ts = pre ++ t :: post ∧ t.completed = true ∧
        (pyLower t.title == pyLower "Write Report") = true :=
  mark_task_complete_idempotent [taskHigh] "Write Report" taskHigh (by decide) (by decide)

/-- C10: a successful `mark_task_complete` changes only the completed field
of the first case-insensitive match: its other five fields, every task
before and after it, and the collection's length and order are unchanged. -/
theorem mark_task_complete_frame (tasks ts : List Task) (title : String)
    (h : mark_task_complete tasks title = .ok ts) :
    ∃ pre t post,
      tasks = pre ++ t :: post ∧
      (∀ u ∈ pre, (pyLower u.title == pyLower title) = false) ∧
      (pyLower t.title == pyLower title) = true ∧
      ts = pre ++ Task.mk t.title t.category t.priority t.due_date true t.comments :: post ∧
      ts.length = tasks.length := by
  obtain ⟨pre, t, post, h1, h2, h3, h4⟩ := mark_task_complete_ok_split h
  exact ⟨pre, t, post, h1, h2, h3, h4, by rw [h1, h4]; simp⟩

/-- Witness for C10 on a concrete two-element collection. -/
theorem mark_task_complete_frame_witness :
    ∃ pre t post,
      [taskLow, taskHigh] = pre ++ t :: post ∧
      (∀ u ∈ pre, (pyLower u.title == pyLower "write report") = false) ∧
      (pyLower t.title == pyLower "write report") = true ∧
      [taskLow, taskHighDone] =
        pre ++ Task.mk t.title t.category t.priority t.due_date true t.comments :: post ∧
      ([taskLow, taskHighDone] : List Task).length = ([taskLow, taskHigh] : List Task).length :=
  mark_task_complete_frame [taskLow, taskHigh] [taskLow, taskHighDone] "write report"
    (by decide)

/-- Every task in the collection left by `add_task` was already there or
carries the submitted title. -/
theorem mem_add_task_tasks {tasks : List Task} {ti ca pr dd co : String}
    {today : PyDateTime} :
    ∀ u ∈ (add_task tasks ti ca pr dd co today).tasks, u ∈ tasks ∨ u.title = ti := by
  intro u hu
  by_cases hval : validate_priority pr = false
  · simp only [add_task, if_pos hval] at hu
    exact Or.inl hu
  · cases hdc : dateCheckFn dd today <;>
      simp only [add_task, if_neg hval, hdc] at hu
    · rcases List.mem_append.mp hu with hu | hu
      · exact Or.inl hu
      · exact Or.inr (by rw [List.mem_singleton.mp hu])
    · exact Or.inl hu
    · exact Or.inl hu

/-- Every task in a successful `remove_task` result was in the input. -/
theorem mem_remove_task_ok {tasks ts : List Task} {title : String}
    (h : remove_task tasks title = .ok ts) : ∀ u ∈ ts, u ∈ tasks := by
  induction tasks generalizing ts with
  | nil => cases h
  | cons t rest ih =>
    rw [remove_task] at h
    by_cases hc : (pyLower t.title == pyLower title) = true
    · rw [if_pos hc] at h
      cases h
      intro u hu
      exact List.mem_cons_of_mem t hu
    · rw [if_neg hc] at h
      cases hrec : remove_task rest title with
      | ok ts2 =>
        rw [hrec] at h
        cases h
        intro u hu
        rcases List.mem_cons.mp hu with rfl | hu
        · exact List.mem_cons_self _ _
        · exact List.mem_cons_of_mem t (ih hrec u hu)
      | err e =>
        rw [hrec] at h
        cases h

/-- The task produced by a successful patch body carries either the kept
old title (blank patch) or the submitted new one. -/
theorem editMatched_ok_title {t t2 : Task} {nt nc np nd ncom : String}
    {today : PyDateTime} (h : editMatched t nt nc np nd ncom today = .ok t2) :
    t2.title = if nt = "" then t.title else nt := by
  simp only [editMatched] at h
  by_cases h1 : (if np = "" then t.priority else np) ≠ "" ∧
      validate_priority (if np = "" then t.priority else np) = false
  · rw [if_pos h1] at h
    cases h
  · rw [if_neg h1] at h
    cases hdc : (if (if nd = "" then t.due_date else nd) = "" then DateCheck.ok
        else dateCheckFn (if nd = "" then t.due_date else nd) today) with
    | ok =>
      rw [hdc] at h
      cases h
      rfl
    | badFormat =>
      rw [hdc] at h
      cases h
    | pastDate =>
      rw [hdc] at h
      cases h

/-- Every task in a successful `edit_task` result was in the input or is
the output of the patch body on some input task. -/
theorem edit_task_ok_mem {title nt nc np nd ncom : String} {today : PyDateTime}
    {tasks ts : List Task} (h : edit_task title nt nc np nd ncom today tasks = .ok ts) :
    ∀ u ∈ ts, u ∈ tasks ∨ ∃ t ∈ tasks, editMatched t nt nc np nd ncom today = .ok u := by
  induction tasks generalizing ts with
  | nil => cases h
  | cons t rest ih =>
    rw [edit_task] at h
    by_cases hc : (pyLower t.title == pyLower title) = true
    · rw [if_pos hc] at h
      cases hm : editMatched t nt nc np nd ncom today with
      | ok t2 =>
        rw [hm] at h
        cases h
        intro u hu
        rcases List.mem_cons.mp hu with rfl | hu
        · exact Or.inr ⟨t, List.mem_cons_self t rest, hm⟩
        · exact Or.inl (List.mem_cons_of_mem t hu)
      | err e =>
        rw [hm] at h
        cases h
    · rw [if_neg hc] at h
      cases hrec : edit_task title nt nc np nd ncom today rest with
      | ok ts2 =>
        rw [hrec] at h
        cases h
        intro u hu
        rcases List.mem_cons.mp hu with rfl | hu
        · exact Or.inl (List.mem_cons_self u rest)
        · rcases ih hrec u hu with h2 | ⟨t0, ht0, hm⟩
          · exact Or.inl (List.mem_cons_of_mem t h2)
          · exact Or.inr ⟨t0, List.mem_cons_of_mem t ht0, hm⟩
      | err e =>
        rw [hrec] at h
        cases h

/-- One mutating operation preserves "all titles non-empty", provided an
`add` never submits an empty title (the other operations cannot create
one: a blank edit title keeps the old title, a non-blank one is itself
non-empty). -/
theorem applyOp_titles {tasks : List Task} {op : Op} (hop : addTitleOkB op = true)
    (hinv : ∀ u ∈ tasks, u.title ≠ "") : ∀ u ∈ applyOp tasks op, u.title ≠ "" := by
  cases op with
  | addOp ti ca pr dd co today =>
    intro u hu
    rcases mem_add_task_tasks u hu with h | h
    · exact hinv u h
    · rw [h]
      simpa [addTitleOkB] using hop
  | removeOp title =>
    intro u hu
    simp only [applyOp] at hu
    cases hrec : remove_task tasks title with
    | ok ts =>
      simp only [hrec] at hu
      exact hinv u (mem_remove_task_ok hrec u hu)
    | err e =>
      simp only [hrec] at hu
      exact hinv u hu
  | editOp title nt nc np nd ncom today =>
    intro u hu
    simp only [applyOp] at hu
    cases hrec : edit_task title nt nc np nd ncom today tasks with
    | ok ts =>
      simp only [hrec] at hu
      rcases edit_task_ok_mem hrec u hu with h | ⟨t0, ht0, hm⟩
      · exact hinv u h
      · by_cases hnt : nt = ""
        · rw [editMatched_ok_title hm, if_pos hnt]
          exact hinv t0 ht0
        · rw [editMatched_ok_title hm, if_neg hnt]
          exact hnt
    | err e =>
      simp only [hrec] at hu
      exact hinv u hu
  | markCompleteOp title =>
    intro u hu
    simp only [applyOp] at hu
    cases hrec : mark_task_complete tasks title with
    | ok ts =>
      simp only [hrec] at hu
      obtain ⟨pre, t, post, hs, hpre, ht, hts⟩ := mark_task_complete_ok_split hrec
      subst hs
      subst hts
      rcases List.mem_append.mp hu with hu | hu
      · exact hinv u (List.mem_append.mpr (Or.inl hu))
      · rcases List.mem_cons.mp hu with rfl | hu
        · exact hinv t (List.mem_append.mpr (Or.inr (List.mem_cons_self t post)))
        · exact hinv u (List.mem_append.mpr (Or.inr (List.mem_cons_of_mem t hu)))
    | err e =>
      simp only [hrec] at hu
      exact hinv u hu
  | removeCompletedOp =>
    intro u hu
    simp only [applyOp, remove_completed_tasks] at hu
    exact hinv u (List.mem_filter.mp hu).1
  | removeAllOp confirmed =>
    intro u hu
    cases confirmed <;> simp_all [applyOp, remove_all_tasks]

/-- A whole operation sequence preserves "all titles non-empty" when every
`add` submits a non-empty title. -/
theorem applyOps_titles {ops : List Op} (hops : ∀ op ∈ ops, addTitleOkB op = true) :
    ∀ {tasks : List Task}, (∀ u ∈ tasks, u.title ≠ "") →
      ∀ u ∈ applyOps tasks ops, u.title ≠ "" := by
  induction ops with
  | nil =>
    intro tasks h u hu
    exact h u hu
  | cons op ops ih =>
    intro tasks h u hu
    rw [applyOps] at hu
    exact ih (fun o ho => hops o (List.mem_cons_of_mem op ho))
      (applyOp_titles (hops op (List.mem_cons_self op ops)) h) u hu

/-- Counterexample to C6: `add_task` performs no title validation, so one
`add` with an empty title reaches a state containing an empty-titled task. -/
theorem add_accepts_empty_title :
    applyOps [] [Op.addOp "" "Work" "High" "31-12-2030" "" dtNow] =
      [⟨"", "Work", "High", "31-12-2030", false, none⟩] ∧
    ¬ (∀ t ∈ applyOps [] [Op.addOp "" "Work" "High" "31-12-2030" "" dtNow],
        t.title ≠ "") := by
  decide

/-- C6 (amended): in every state reachable from the empty collection by
add, edit, remove, mark-complete, remove-completed and remove-all
operations in which every `add` submits a non-empty title, every task's
title is non-empty (the code itself never checks titles; only `add` can
introduce an empty one). -/
theorem titles_nonempty_invariant (ops : List Op)
    (hops : ∀ op ∈ ops, addTitleOkB op = true) :
    ∀ t ∈ applyOps [] ops, t.title ≠ "" :=
  applyOps_titles hops (by simp)

/-- Witness for C6 (amended) after one well-formed `add`. -/
theorem titles_nonempty_invariant_witness :
    (Task.mk "buy milk" "Shopping" "High" "31-12-2030" false none).title ≠ "" :=
  titles_nonempty_invariant [Op.addOp "buy milk" "Shopping" "High" "31-12-2030" "" dtNow]
    (by decide) _ (by decide)

end TaskManager
